import Mathlib

/-! Route animation (`src/MapComponent.js`).

A shallow embedding of the vessel animation of `MapComponent`: the route
length, the segment walk and interpolation that `animate` and
`handleSliderChange` both perform, the animation tick, and the Play/Pause,
Reset and slider handlers.

Numbers live in an ordered field `K`; `Math.sqrt` is a parameter `sqrt`
(instantiated with `Real.sqrt` in the concrete runs).  The component state
and the browser's frame queue are one record, `World`.  A callback reads the
state that is current when it runs.  The icon style and the unused `rotation`
are presentation only and are not part of the record; the `useEffect` hooks
(map set-up, and the re-request of `animateVessel` when `isAnimating` flips)
are not embedded.  In the component the loop is started by that re-request,
the closure queued by `handlePlayPause` still seeing `isAnimating = false`;
here the request queued by `handlePlayPause` reads the current state and plays
that role, so one loop starts per Play in both.  Division is the field
division: where a quotient matters, the divisor is shown to be non-zero.
-/

namespace RouteAnimation

variable {K : Type} [LinearOrderedField K]

/-! ## Data model -/

/-- A projected map coordinate `[x, y]`. -/
abbrev Coord (K : Type) := K × K

/-- A callback handed to `requestAnimationFrame`: the outer `animateVessel`, or
the inner `animate` together with the `start` variable it closes over. -/
inductive Callback (K : Type) where
  | animateVessel : Callback K
  | animate (start : K) : Callback K

/-- The component state (`useState` cells and the vessel geometry) and the
browser frame queue. `vesselFeature = none` is the `null` feature; otherwise it
holds the coordinates of the vessel geometry. -/
structure World (K : Type) where
  routeCoords : List (Coord K)
  vesselFeature : Option (Coord K)
  isAnimating : Bool
  sliderValue : K
  animationFrame : Option Nat
  elapsedTime : K
  nextFrame : Nat
  pending : List (Nat × Callback K)

/-- The outcome of the segment walk and interpolation (lines 118-146 and
230-258): the local variables of the `if (nextCoord)` block. -/
structure Sample (K : Type) where
  index : Nat
  distance : K
  segmentLength : K
  fraction : K
  intermediateCoord : Coord K

/-! ## Browser frame queue -/

/-- The call `requestAnimationFrame(cb)`: queues the callback and returns its handle. -/
def requestAnimationFrame (cb : Callback K) (w : World K) : Nat × World K :=
  (w.nextFrame,
    { w with nextFrame := w.nextFrame + 1, pending := w.pending ++ [(w.nextFrame, cb)] })

/-- The call `cancelAnimationFrame(handle)`: drops the queued callback with that handle. -/
def cancelAnimationFrame (handle : Nat) (w : World K) : World K :=
  { w with pending := w.pending.filter (fun p => p.1 != handle) }

/-- The statement `if (animationFrame) cancelAnimationFrame(animationFrame)`:
`null` and `0` are falsy. -/
def cancelIfSet (animationFrame : Option Nat) (w : World K) : World K :=
  match animationFrame with
  | some handle => if handle = 0 then w else cancelAnimationFrame handle w
  | none => w

/-! ## Geometry -/

/-- The expression `Math.sqrt(Math.pow(b[0] - a[0], 2) + Math.pow(b[1] - a[1], 2))`. -/
def segmentLength (sqrt : K → K) (a b : Coord K) : K :=
  sqrt ((b.1 - a.1) ^ 2 + (b.2 - a.2) ^ 2)

/-- The reducer of `totalLength`: `(acc, curr, i) => ...` over `routeCoords`. -/
def totalLengthStep (sqrt : K → K) (routeCoords : List (Coord K)) (acc : K)
    (ic : Nat × Coord K) : K :=
  if ic.1 = 0 then acc
  else
    match routeCoords[ic.1 - 1]? with
    | some prev => acc + segmentLength sqrt prev ic.2
    | none => acc

/-- The value `totalLength = routeCoords.reduce(..., 0)` (lines 108-115, 220-227). -/
def totalLength (sqrt : K → K) (routeCoords : List (Coord K)) : K :=
  routeCoords.enum.foldl (totalLengthStep sqrt routeCoords) 0

/-- The `for (index = 0; index < routeCoords.length - 1; index++)` loop (lines
121-132, 233-244).  The list is `routeCoords` from position `index` on, so the
loop guard holds exactly when two points remain.  Returns the final `index`
and `distance`. -/
def walk (sqrt : K → K) (traveled : K) : List (Coord K) → Nat → K → Nat × K
  | a :: b :: rest, index, distance =>
    if distance + segmentLength sqrt a b > traveled then (index, distance)
    else walk sqrt traveled (b :: rest) (index + 1) (distance + segmentLength sqrt a b)
  | _, index, distance => (index, distance)

/-- Lines 118-146 (and 230-258): the walk, then the `if (nextCoord)` block up to
`intermediateCoord`.  `none` when `routeCoords[index + 1]` is `undefined`. -/
def sample (sqrt : K → K) (routeCoords : List (Coord K)) (traveled : K) :
    Option (Sample K) :=
  let r := walk sqrt traveled routeCoords 0 0
  match routeCoords[r.1]?, routeCoords[r.1 + 1]? with
  | some currentCoord, some nextCoord =>
    let segLen := segmentLength sqrt currentCoord nextCoord
    let fraction := (traveled - r.2) / segLen
    some
      { index := r.1
        distance := r.2
        segmentLength := segLen
        fraction := fraction
        intermediateCoord :=
          (currentCoord.1 + (nextCoord.1 - currentCoord.1) * fraction,
           currentCoord.2 + (nextCoord.2 - currentCoord.2) * fraction) }
  | _, _ => none

/-! ## Animation driver -/

/-- The constant `speed = 300000 * 1000 / 3600` (line 102), that is `83333.3` per
second; the source comment next to it reads "meters per second (30 km/h)". -/
def speed : K := 300000 * 1000 / 3600

/-- The inner `animate(timestamp)` of `animateVessel` (lines 104-169), with its
closure variable `start`.  `none` is the `TypeError` of calling a method on a
`null` vessel. -/
def animate (sqrt : K → K) (start timestamp : K) (w : World K) : Option (World K) :=
  let start := if start = 0 then timestamp else start
  let progress := timestamp - start + w.elapsedTime
  let total := totalLength sqrt w.routeCoords
  let traveled := speed * (progress / 1000)
  match sample sqrt w.routeCoords traveled with
  | none => some w
  | some p =>
    match w.vesselFeature with
    | none => none
    | some _ =>
      let w1 : World K :=
        { w with
          vesselFeature := some p.intermediateCoord
          sliderValue := (p.distance + p.segmentLength * p.fraction) / total * 100 }
      if w.isAnimating then
        let r := requestAnimationFrame (Callback.animate start) w1
        some { r.2 with animationFrame := some r.1 }
      else
        some { w1 with elapsedTime := progress }

/-- The function `animateVessel(timestamp)` (lines 99-175). -/
def animateVessel (timestamp : K) (w : World K) : World K :=
  if w.vesselFeature.isNone ∨ w.routeCoords.length = 0 then w
  else if w.isAnimating then
    let r := requestAnimationFrame (Callback.animate timestamp) w
    { r.2 with animationFrame := some r.1 }
  else w

/-- The handler `handlePlayPause` (lines 177-187). -/
def handlePlayPause (w : World K) : World K :=
  if w.isAnimating then
    cancelIfSet w.animationFrame { w with isAnimating := false }
  else
    (requestAnimationFrame Callback.animateVessel { w with isAnimating := true }).2

/-- The handler `handleReset` (lines 189-206). -/
def handleReset (w : World K) : World K :=
  let w1 := cancelIfSet w.animationFrame w
  let w2 : World K := { w1 with isAnimating := false, elapsedTime := 0, sliderValue := 0 }
  match w2.vesselFeature, w2.routeCoords with
  | some _, first :: _ => { w2 with vesselFeature := some first }
  | _, _ => w2

/-- The handler `handleSliderChange(event)` (lines 216-272); `value` is
`event.target.value`.  `none` is the `TypeError` of calling a method on a
`null` vessel. -/
def handleSliderChange (sqrt : K → K) (value : K) (w : World K) : Option (World K) :=
  let w1 : World K := { w with sliderValue := value }
  let total := totalLength sqrt w.routeCoords
  let traveled := total * (value / 100)
  match sample sqrt w.routeCoords traveled with
  | none => some w1
  | some p =>
    match w.vesselFeature with
    | none => none
    | some _ => some { w1 with vesselFeature := some p.intermediateCoord }

/-- One browser frame at time `timestamp`: every callback queued before the
frame runs once, in order; callbacks they queue wait for the next frame. -/
def runCallbacks (sqrt : K → K) (timestamp : K) :
    List (Nat × Callback K) → World K → Option (World K)
  | [], w => some w
  | (handle, cb) :: rest, w =>
    if w.pending.any (fun p => p.1 == handle) then
      let w0 := cancelAnimationFrame handle w
      match cb with
      | Callback.animateVessel => runCallbacks sqrt timestamp rest (animateVessel timestamp w0)
      | Callback.animate start =>
        match animate sqrt start timestamp w0 with
        | some w1 => runCallbacks sqrt timestamp rest w1
        | none => none
    else runCallbacks sqrt timestamp rest w

/-- A frame of the browser at time `timestamp`. -/
def frame (sqrt : K → K) (timestamp : K) (w : World K) : Option (World K) :=
  runCallbacks sqrt timestamp w.pending w

/-- The state of a freshly mounted component (lines 21-26), with an empty frame queue. -/
def initial : World K :=
  { routeCoords := []
    vesselFeature := none
    isAnimating := false
    sliderValue := 0
    animationFrame := none
    elapsedTime := 0
    nextFrame := 1
    pending := [] }

/-- The `drawend` listener (lines 62-94): stores the drawn coordinates and
creates the vessel at `coords[0]` (a drawn line string is never empty). -/
def drawend (coords : List (Coord K)) (w : World K) : World K :=
  { w with routeCoords := coords, vesselFeature := coords.head? }

/-- The state in which the first `animate` tick runs after a route was drawn and
Play pressed: frame 1 (`animateVessel`) and frame 2 (`animate`) were handed out
and have left the queue. -/
def playing (coords : List (Coord K)) : World K :=
  { routeCoords := coords
    vesselFeature := coords.head?
    isAnimating := true
    sliderValue := 0
    animationFrame := some 2
    elapsedTime := 0
    nextFrame := 3
    pending := [] }

/-- A state in the middle of a run: the vessel is at `(5, 0)`, the slider at `25`
and frame `3` is queued for the next tick. -/
def midRun : World ℝ :=
  { routeCoords := [(0, 0), (10, 0), (10, 10)]
    vesselFeature := some (5, 0)
    isAnimating := true
    sliderValue := 25
    animationFrame := some 3
    elapsedTime := 0
    nextFrame := 4
    pending := [(3, Callback.animate 1)] }

/-! ## Specification-side notions -/

/-- Sum of the lengths of consecutive segments of a polyline, by recursion on
the list of points. -/
def pathLength (sqrt : K → K) : List (Coord K) → K
  | a :: b :: rest => segmentLength sqrt a b + pathLength sqrt (b :: rest)
  | _ => 0

/-- The quantity `D_i`: the length of the route before segment `i`, that is, of
the polyline through the points `0 .. i`. -/
def distBefore (sqrt : K → K) (routeCoords : List (Coord K)) (i : Nat) : K :=
  totalLength sqrt (routeCoords.take (i + 1))

/-! ## Route length -/

theorem totalLength_fold (sqrt : K → K) (routeCoords : List (Coord K)) :
    ∀ (l pre : List (Coord K)) (a : Coord K) (acc : K), routeCoords = pre ++ a :: l →
      (l.enumFrom (pre.length + 1)).foldl (totalLengthStep sqrt routeCoords) acc
        = acc + pathLength sqrt (a :: l) := by
  intro l
  induction l with
  | nil => intro pre a acc _; simp [pathLength]
  | cons b l ih =>
    intro pre a acc h
    have hget : routeCoords[pre.length]? = some a := by
      rw [h, List.getElem?_append_right (le_refl _)]; simp
    have hstep : totalLengthStep sqrt routeCoords acc (pre.length + 1, b)
        = acc + segmentLength sqrt a b := by
      simp [totalLengthStep, hget]
    have h2 : routeCoords = (pre ++ [a]) ++ b :: l := by rw [h]; simp
    have := ih (pre ++ [a]) b (acc + segmentLength sqrt a b) h2
    simp only [List.length_append, List.length_singleton] at this
    simp only [List.enumFrom_cons, List.foldl_cons, hstep, this, pathLength]
    ring

theorem totalLength_eq_pathLength (sqrt : K → K) (routeCoords : List (Coord K)) :
    totalLength sqrt routeCoords = pathLength sqrt routeCoords := by
  cases routeCoords with
  | nil => simp [totalLength, pathLength]
  | cons a l =>
    have := totalLength_fold sqrt (a :: l) l [] a 0 rfl
    simp only [List.length_nil, Nat.zero_add] at this
    simp only [totalLength, List.enum, List.enumFrom_cons, List.foldl_cons]
    have h0 : totalLengthStep sqrt (a :: l) 0 (0, a) = 0 := by simp [totalLengthStep]
    rw [h0, this]; simp

theorem pathLength_nonneg (sqrt : K → K) (hs : ∀ x, 0 ≤ sqrt x) :
    ∀ l : List (Coord K), 0 ≤ pathLength sqrt l := by
  intro l
  induction l with
  | nil => simp [pathLength]
  | cons a tl ih =>
    cases tl with
    | nil => simp [pathLength]
    | cons b rest =>
      simp only [pathLength]
      exact add_nonneg (hs _) ih

theorem pathLength_take_succ (sqrt : K → K) :
    ∀ (l : List (Coord K)) (k : Nat) (a b : Coord K), l[k]? = some a → l[k + 1]? = some b →
      pathLength sqrt (l.take (k + 2)) = pathLength sqrt (l.take (k + 1)) + segmentLength sqrt a b := by
  intro l
  induction l with
  | nil => intro k a b h; simp at h
  | cons x tl ih =>
    intro k a b ha hb
    cases tl with
    | nil => simp at hb
    | cons y rest =>
      cases k with
      | zero =>
        simp at ha hb
        subst ha; subst hb
        simp [pathLength]
      | succ k =>
        have ha2 : (y :: rest)[k]? = some a := by simpa using ha
        have hb2 : (y :: rest)[k + 1]? = some b := by simpa using hb
        have := ih k a b ha2 hb2
        simp only [List.take_succ_cons] at this ⊢
        simp only [pathLength, this]
        ring

/-! ## The segment walk -/

theorem walk_index_ge (sqrt : K → K) (t : K) :
    ∀ (l : List (Coord K)) (i : Nat) (D : K), i ≤ (walk sqrt t l i D).1 := by
  intro l
  induction l with
  | nil => intro i D; simp [walk]
  | cons a tl ih =>
    intro i D
    cases tl with
    | nil => simp [walk]
    | cons b rest =>
      simp only [walk]
      split
      · exact le_refl _
      · exact le_trans (Nat.le_succ i) (ih (i + 1) _)

/-- The walk stops after `k` steps: `k` segments were added to `distance`, each
initial run of them fits below `traveled`, and, if a segment remains, adding it
exceeds `traveled`. -/
theorem walk_spec (sqrt : K → K) (t : K) :
    ∀ (l : List (Coord K)) (i : Nat) (D : K), ∃ k : Nat,
      walk sqrt t l i D = (i + k, D + pathLength sqrt (l.take (k + 1))) ∧
      (∀ m, m < k → D + pathLength sqrt (l.take (m + 2)) ≤ t) ∧
      (k + 1 < l.length → t < D + pathLength sqrt (l.take (k + 2))) ∧
      (l ≠ [] → k + 1 ≤ l.length) := by
  intro l
  induction l with
  | nil => intro i D; exact ⟨0, by simp [walk, pathLength], by simp, by simp, by simp⟩
  | cons a tl ih =>
    intro i D
    cases tl with
    | nil => exact ⟨0, by simp [walk, pathLength], by simp, by simp, by simp⟩
    | cons b rest =>
      by_cases hbrk : D + segmentLength sqrt a b > t
      · refine ⟨0, by simp [walk, hbrk, pathLength], by simp, ?_, by simp⟩
        intro _
        simpa [pathLength] using hbrk
      · obtain ⟨k, hw, hfirst, hbreak, hlen⟩ := ih (i + 1) (D + segmentLength sqrt a b)
        refine ⟨k + 1, ?_, ?_, ?_, ?_⟩
        · simp only [walk, if_neg hbrk, hw, List.take_succ_cons, pathLength]
          simp only [List.take_succ_cons] at hw ⊢
          ext
          · simp; omega
          · simp; ring
        · intro m hm
          cases m with
          | zero => simpa [pathLength] using not_lt.mp hbrk
          | succ m =>
            have := hfirst m (by omega)
            simp only [List.take_succ_cons] at this ⊢
            simp only [pathLength]
            linarith
        · intro hk
          have := hbreak (by simpa using hk)
          simp only [List.take_succ_cons] at this ⊢
          simp only [pathLength]
          linarith
        · intro _
          have := hlen (by simp)
          simp at this ⊢
          omega

/-- The walk over the whole route, in terms of the cumulative distances `D_i`. -/
theorem walk_route (sqrt : K → K) (t : K) (route : List (Coord K)) :
    ∃ k : Nat, walk sqrt t route 0 0 = (k, distBefore sqrt route k) ∧
      (∀ m, m < k → distBefore sqrt route (m + 1) ≤ t) ∧
      (k + 1 < route.length → t < distBefore sqrt route (k + 1)) ∧
      (route ≠ [] → k + 1 ≤ route.length) := by
  obtain ⟨k, hw, hfirst, hbreak, hlen⟩ := walk_spec sqrt t route 0 0
  refine ⟨k, ?_, ?_, ?_, hlen⟩
  · simpa [distBefore, totalLength_eq_pathLength] using hw
  · intro m hm
    simpa [distBefore, totalLength_eq_pathLength] using hfirst m hm
  · intro hk
    simpa [distBefore, totalLength_eq_pathLength] using hbreak hk

theorem distBefore_zero (sqrt : K → K) (route : List (Coord K)) :
    distBefore sqrt route 0 = 0 := by
  cases route with
  | nil => simp [distBefore, totalLength_eq_pathLength, pathLength]
  | cons a tl => simp [distBefore, totalLength_eq_pathLength, pathLength]

theorem distBefore_succ (sqrt : K → K) (route : List (Coord K)) (k : Nat) (a b : Coord K)
    (ha : route[k]? = some a) (hb : route[k + 1]? = some b) :
    distBefore sqrt route (k + 1) = distBefore sqrt route k + segmentLength sqrt a b := by
  simp only [distBefore, totalLength_eq_pathLength]
  exact pathLength_take_succ sqrt route k a b ha hb

/-- For `traveled ≥ 0` the walk never lets `distance` pass `traveled`. -/
theorem walk_distance_le (sqrt : K → K) (t : K) (ht : 0 ≤ t) (route : List (Coord K)) :
    (walk sqrt t route 0 0).2 ≤ t := by
  obtain ⟨k, hw, hfirst, -, -⟩ := walk_route sqrt t route
  rw [hw]
  cases k with
  | zero => simpa [distBefore_zero] using ht
  | succ k => exact hfirst k (Nat.lt_succ_self k)

/-- When a next point exists, the segment at the final index is the one that
made the loop break. -/
theorem walk_break (sqrt : K → K) (t : K) (route : List (Coord K)) (a b : Coord K)
    (ha : route[(walk sqrt t route 0 0).1]? = some a)
    (hb : route[(walk sqrt t route 0 0).1 + 1]? = some b) :
    t < (walk sqrt t route 0 0).2 + segmentLength sqrt a b := by
  obtain ⟨k, hw, -, hbreak, -⟩ := walk_route sqrt t route
  rw [hw] at ha hb ⊢
  simp only at ha hb ⊢
  have hk : k + 1 < route.length := by
    by_contra hcon
    rw [List.getElem?_eq_none (by omega)] at hb
    cases hb
  rw [← distBefore_succ sqrt route k a b ha hb]
  exact hbreak hk

/-- What `sample` returns, when it returns a value. -/
theorem sample_eq_some (sqrt : K → K) (route : List (Coord K)) (t : K) (p : Sample K)
    (h : sample sqrt route t = some p) :
    ∃ a b, route[p.index]? = some a ∧ route[p.index + 1]? = some b ∧
      p.index = (walk sqrt t route 0 0).1 ∧ p.distance = (walk sqrt t route 0 0).2 ∧
      p.segmentLength = segmentLength sqrt a b ∧
      p.fraction = (t - p.distance) / p.segmentLength ∧
      p.intermediateCoord = (a.1 + (b.1 - a.1) * p.fraction, a.2 + (b.2 - a.2) * p.fraction) := by
  unfold sample at h
  simp only at h
  split at h
  · rename_i a b ha hb
    simp only [Option.some.injEq] at h
    subst h
    exact ⟨a, b, ha, hb, rfl, rfl, rfl, rfl, rfl⟩
  · cases h

theorem walk_mono (sqrt : K → K) (d1 d2 : K) (h : d1 ≤ d2) :
    ∀ (l : List (Coord K)) (i : Nat) (D : K),
      (walk sqrt d1 l i D).1 ≤ (walk sqrt d2 l i D).1 := by
  intro l
  induction l with
  | nil => intro i D; simp [walk]
  | cons a tl ih =>
    intro i D
    cases tl with
    | nil => simp [walk]
    | cons b rest =>
      by_cases h1 : D + segmentLength sqrt a b > d1
      · have : walk sqrt d1 (a :: b :: rest) i D = (i, D) := by simp [walk, h1]
        rw [this]
        exact walk_index_ge sqrt d2 _ i D
      · have h2 : ¬ D + segmentLength sqrt a b > d2 := by
          intro hc
          exact h1 (lt_of_le_of_lt h hc)
        simp only [walk, if_neg h1, if_neg h2]
        exact ih (i + 1) _

/-- With a non-negative `sqrt`, a walk whose `traveled` is not below the length
still ahead runs through every segment. -/
theorem walk_of_ge (sqrt : K → K) (hs : ∀ x, 0 ≤ sqrt x) (t : K) :
    ∀ (l : List (Coord K)) (i : Nat) (D : K), D + pathLength sqrt l ≤ t →
      walk sqrt t l i D = (i + (l.length - 1), D + pathLength sqrt l) := by
  intro l
  induction l with
  | nil => intro i D _; simp [walk, pathLength]
  | cons a tl ih =>
    intro i D h
    cases tl with
    | nil => simp [walk, pathLength]
    | cons b rest =>
      have hrest := pathLength_nonneg sqrt hs (b :: rest)
      simp only [pathLength] at h
      have hnb : ¬ D + segmentLength sqrt a b > t := by
        intro hc; linarith
      have := ih (i + 1) (D + segmentLength sqrt a b) (by linarith)
      simp only [walk, if_neg hnb, this, pathLength]
      ext
      · simp; omega
      · simp; ring

/-- Past the end of the route there is no next point, so `sample` yields nothing. -/
theorem sample_none_of_ge (sqrt : K → K) (hs : ∀ x, 0 ≤ sqrt x) (route : List (Coord K))
    (t : K) (ht : totalLength sqrt route ≤ t) : sample sqrt route t = none := by
  rw [totalLength_eq_pathLength] at ht
  have hw := walk_of_ge sqrt hs t route 0 0 (by simpa using ht)
  unfold sample
  simp only [hw]
  have hnone : route[0 + (route.length - 1) + 1]? = none := by
    apply List.getElem?_eq_none
    omega
  rw [hnone]
  split
  · rename_i h1 h2; cases h2
  · rfl

/-- Below the route length the walk stops at a segment and `sample` interpolates on it. -/
theorem sample_of_lt (sqrt : K → K) (route : List (Coord K)) (d : K) (h0 : 0 ≤ d)
    (hd : d < totalLength sqrt route) :
    ∃ (i : Nat) (a b : Coord K), route[i]? = some a ∧ route[i + 1]? = some b ∧
      (∀ m, m < i → distBefore sqrt route (m + 1) ≤ d) ∧
      d < distBefore sqrt route (i + 1) ∧ distBefore sqrt route i ≤ d ∧
      0 < segmentLength sqrt a b ∧
      sample sqrt route d = some
        { index := i
          distance := distBefore sqrt route i
          segmentLength := segmentLength sqrt a b
          fraction := (d - distBefore sqrt route i) / segmentLength sqrt a b
          intermediateCoord :=
            (a.1 + (b.1 - a.1) * ((d - distBefore sqrt route i) / segmentLength sqrt a b),
             a.2 + (b.2 - a.2) * ((d - distBefore sqrt route i) / segmentLength sqrt a b)) } := by
  obtain ⟨k, hw, hfirst, hbreak, hlen⟩ := walk_route sqrt d route
  have hle := walk_distance_le sqrt d h0 route
  rw [hw] at hle
  simp only at hle
  have hne : route ≠ [] := by
    intro hnil
    rw [hnil] at hd
    simp [totalLength] at hd
    exact absurd hd (not_lt.mpr h0)
  have hk : k + 1 < route.length := by
    by_contra hcon
    have hk' : route.length ≤ k + 1 := by omega
    have : distBefore sqrt route k = totalLength sqrt route := by
      simp [distBefore, List.take_of_length_le hk']
    rw [this] at hle
    exact absurd hd (not_lt.mpr hle)
  have ha : route[k]? = some (route[k]) := List.getElem?_eq_getElem (by omega)
  have hb : route[k + 1]? = some (route[k + 1]) := List.getElem?_eq_getElem hk
  have hbk := hbreak hk
  have hpos : 0 < segmentLength sqrt route[k] route[k + 1] := by
    rw [distBefore_succ sqrt route k _ _ ha hb] at hbk
    linarith
  refine ⟨k, route[k], route[k + 1], ha, hb, hfirst, hbk, hle, hpos, ?_⟩
  unfold sample
  simp only [hw, ha, hb]

/-- At `traveled = 0` the walk passes the leading zero-length segments and
stops on the first segment of positive length, whose start equals the first
point. -/
theorem walk_zero (sqrt : K → K) (hs : ∀ x, 0 ≤ sqrt x)
    (hs0 : ∀ x, 0 ≤ x → sqrt x = 0 → x = 0) :
    ∀ (l : List (Coord K)) (i : Nat), 0 < pathLength sqrt l →
      ∃ (k : Nat) (a b : Coord K), walk sqrt 0 l i 0 = (i + k, 0) ∧
        l[k]? = some a ∧ l[k + 1]? = some b ∧ l[0]? = some a ∧ 0 < segmentLength sqrt a b := by
  intro l
  induction l with
  | nil => intro i h; simp [pathLength] at h
  | cons a tl ih =>
    intro i h
    cases tl with
    | nil => simp [pathLength] at h
    | cons b rest =>
      by_cases hbrk : (0 : K) + segmentLength sqrt a b > 0
      · refine ⟨0, a, b, by simp only [walk, if_pos hbrk]; simp, by simp, by simp, by simp,
          by simpa using hbrk⟩
      · have hzero : segmentLength sqrt a b = 0 :=
          le_antisymm (by simpa using hbrk) (hs _)
        have hsq : (b.1 - a.1) ^ 2 + (b.2 - a.2) ^ 2 = 0 :=
          hs0 _ (add_nonneg (sq_nonneg _) (sq_nonneg _)) hzero
        have h1 : (b.1 - a.1) ^ 2 = 0 := by
          have := sq_nonneg (b.1 - a.1); have := sq_nonneg (b.2 - a.2); linarith
        have h2 : (b.2 - a.2) ^ 2 = 0 := by
          have := sq_nonneg (b.1 - a.1); have := sq_nonneg (b.2 - a.2); linarith
        have hab : a = b := by
          ext
          · have := pow_eq_zero_iff (two_ne_zero) |>.mp h1; linarith
          · have := pow_eq_zero_iff (two_ne_zero) |>.mp h2; linarith
        have hrest : 0 < pathLength sqrt (b :: rest) := by
          simp only [pathLength, hzero, zero_add] at h
          exact h
        obtain ⟨k, a', b', hw, hk, hk1, h0, hpos⟩ := ih (i + 1) hrest
        have ha' : a' = b := by simpa using h0.symm
        refine ⟨k + 1, a', b', ?_, by simpa using hk, by simpa using hk1, ?_, hpos⟩
        · simp only [walk, if_neg hbrk, zero_add, hzero, hw]
          ext
          · simp; omega
          · simp
        · simp [hab, ha']

/-- At distance `0` on a route of positive length, `sample` returns the first point. -/
theorem sample_zero (sqrt : K → K) (hs : ∀ x, 0 ≤ sqrt x)
    (hs0 : ∀ x, 0 ≤ x → sqrt x = 0 → x = 0) (route : List (Coord K)) (first : Coord K)
    (hfirst : route[0]? = some first) (htot : 0 < totalLength sqrt route) :
    ∃ p, sample sqrt route 0 = some p ∧ p.distance = 0 ∧ p.fraction = 0 ∧
      p.intermediateCoord = first := by
  rw [totalLength_eq_pathLength] at htot
  obtain ⟨k, a, b, hw, hk, hk1, h0, -⟩ := walk_zero sqrt hs hs0 route 0 htot
  have hfa : first = a := by
    rw [hfirst] at h0
    exact Option.some.inj h0
  simp only [zero_add] at hw
  refine ⟨⟨k, 0, segmentLength sqrt a b, (0 - 0) / segmentLength sqrt a b,
    (a.1 + (b.1 - a.1) * ((0 - 0) / segmentLength sqrt a b),
     a.2 + (b.2 - a.2) * ((0 - 0) / segmentLength sqrt a b))⟩, ?_, ?_, ?_, ?_⟩
  · unfold sample
    simp only [hw, hk, hk1]
  · rfl
  · simp
  · simp [hfa]

/-- For `traveled ≥ 0`, multiplying the fraction back by the segment length
gives the distance travelled inside the segment. -/
theorem sample_mul_fraction (sqrt : K → K) (route : List (Coord K)) (d : K)
    (hd : 0 ≤ d) (p : Sample K) (hp : sample sqrt route d = some p) :
    p.segmentLength * p.fraction = d - p.distance := by
  obtain ⟨a, b, ha, hb, hi, hdist, hseg, hfrac, -⟩ := sample_eq_some sqrt route d p hp
  have hle := walk_distance_le sqrt d hd route
  rw [hi] at ha hb
  have hbrk := walk_break sqrt d route a b ha hb
  rw [← hdist] at hle hbrk
  have hne : p.segmentLength ≠ 0 := by
    rw [hseg]
    exact ne_of_gt (by linarith)
  rw [hfrac, mul_div_cancel₀ _ hne]

/-! ## The tick and the slider handler in terms of `sample` -/

theorem animate_of_none (sqrt : K → K) (start timestamp : K) (w : World K)
    (h : sample sqrt w.routeCoords
      (speed * ((timestamp - (if start = 0 then timestamp else start) + w.elapsedTime) / 1000))
        = none) :
    animate sqrt start timestamp w = some w := by
  unfold animate
  simp only [h]

theorem animate_of_some (sqrt : K → K) (start timestamp : K) (w : World K) (p : Sample K)
    (v : Coord K) (hv : w.vesselFeature = some v)
    (h : sample sqrt w.routeCoords
      (speed * ((timestamp - (if start = 0 then timestamp else start) + w.elapsedTime) / 1000))
        = some p) :
    ∃ w1, animate sqrt start timestamp w = some w1 ∧
      w1.routeCoords = w.routeCoords ∧
      w1.vesselFeature = some p.intermediateCoord ∧
      w1.sliderValue
        = (p.distance + p.segmentLength * p.fraction) / totalLength sqrt w.routeCoords * 100 ∧
      w1.isAnimating = w.isAnimating ∧
      (w.isAnimating = true → w1.elapsedTime = w.elapsedTime) := by
  unfold animate
  simp only [h, hv]
  by_cases ha : w.isAnimating = true
  · simp [ha, requestAnimationFrame]
  · simp [ha]

theorem handleSliderChange_of_none (sqrt : K → K) (value : K) (w : World K)
    (h : sample sqrt w.routeCoords (totalLength sqrt w.routeCoords * (value / 100)) = none) :
    handleSliderChange sqrt value w = some { w with sliderValue := value } := by
  unfold handleSliderChange
  simp only [h]

theorem handleSliderChange_of_some (sqrt : K → K) (value : K) (w : World K) (p : Sample K)
    (v : Coord K) (hv : w.vesselFeature = some v)
    (h : sample sqrt w.routeCoords (totalLength sqrt w.routeCoords * (value / 100)) = some p) :
    handleSliderChange sqrt value w
      = some { w with sliderValue := value, vesselFeature := some p.intermediateCoord } := by
  unfold handleSliderChange
  simp only [h, hv]

/-! ## Concrete segment lengths over the reals -/

theorem sqrt_hundred : Real.sqrt 100 = 10 := by
  rw [show (100 : ℝ) = 10 ^ 2 by norm_num]
  exact Real.sqrt_sq (by norm_num)

theorem segmentLength_east :
    segmentLength Real.sqrt ((0 : ℝ), (0 : ℝ)) (10, 0) = 10 := by
  simp [segmentLength, sqrt_hundred]

theorem segmentLength_north :
    segmentLength Real.sqrt ((10 : ℝ), (0 : ℝ)) (10, 10) = 10 := by
  simp [segmentLength, sqrt_hundred]

theorem segmentLength_still :
    segmentLength Real.sqrt ((0 : ℝ), (0 : ℝ)) (0, 0) = 0 := by
  simp [segmentLength]

theorem segmentLength_still_one :
    segmentLength Real.sqrt ((1 : ℝ), (1 : ℝ)) (1, 1) = 0 := by
  simp [segmentLength]

theorem totalLength_example :
    totalLength Real.sqrt [((0 : ℝ), (0 : ℝ)), (10, 0), (10, 10)] = 20 := by
  simp only [totalLength_eq_pathLength, pathLength, segmentLength_east, segmentLength_north]
  norm_num

/-! ## Claims -/

/-- C10: for every route and every travelled distance `d ≥ 0`, whenever the
sampler reaches the division `fraction = (traveled - distance) / segmentLength`
the active segment has strictly positive length, and the fraction lies in
`[0, 1)`. -/
theorem fraction_divisor_positive (sqrt : K → K) (route : List (Coord K)) (d : K)
    (hd : 0 ≤ d) (p : Sample K) (hp : sample sqrt route d = some p) :
    ∃ a b, route[p.index]? = some a ∧ route[p.index + 1]? = some b ∧
      p.segmentLength = segmentLength sqrt a b ∧ 0 < segmentLength sqrt a b ∧
      p.fraction = (d - p.distance) / segmentLength sqrt a b ∧
      0 ≤ p.fraction ∧ p.fraction < 1 := by
  obtain ⟨a, b, ha, hb, hi, hdist, hseg, hfrac, -⟩ := sample_eq_some sqrt route d p hp
  have hle := walk_distance_le sqrt d hd route
  rw [hi] at ha hb
  have hbrk := walk_break sqrt d route a b ha hb
  rw [← hi] at ha hb
  rw [← hdist] at hle hbrk
  have hpos : 0 < segmentLength sqrt a b := by linarith
  refine ⟨a, b, ha, hb, hseg, hpos, by rw [hfrac, hseg], ?_, ?_⟩
  · rw [hfrac, hseg]
    exact div_nonneg (by linarith) (le_of_lt hpos)
  · rw [hfrac, hseg, div_lt_one hpos]
    linarith

theorem fraction_divisor_positive_witness :
    (0 : ℝ) ≤ 5 ∧
    sample Real.sqrt [((0 : ℝ), (0 : ℝ)), (0, 0), (10, 0)] 5
      = some ⟨1, 0, 10, 1 / 2, (5, 0)⟩ ∧
    ∃ a b, [((0 : ℝ), (0 : ℝ)), (0, 0), (10, 0)][1]? = some a ∧
      [((0 : ℝ), (0 : ℝ)), (0, 0), (10, 0)][1 + 1]? = some b ∧
      (10 : ℝ) = segmentLength Real.sqrt a b ∧ 0 < segmentLength Real.sqrt a b ∧
      (1 / 2 : ℝ) = (5 - 0) / segmentLength Real.sqrt a b ∧
      (0 : ℝ) ≤ 1 / 2 ∧ (1 / 2 : ℝ) < 1 := by
  have h : sample Real.sqrt [((0 : ℝ), (0 : ℝ)), (0, 0), (10, 0)] 5
      = some ⟨1, 0, 10, 1 / 2, (5, 0)⟩ := by
    simp only [sample, walk, segmentLength_still, segmentLength_east]
    norm_num [segmentLength_east, -Prod.mk_zero_zero]
  exact ⟨by norm_num, h, fraction_divisor_positive Real.sqrt _ 5 (by norm_num) _ h⟩

/-- C4: for every route and all distances `0 ≤ d1 < d2 ≤ totalLength`, the index
at which the loop stops for `d2` is at least the index at which it stops for `d1`. -/
theorem walk_index_monotone (sqrt : K → K) (route : List (Coord K)) (d1 d2 : K)
    (_h0 : 0 ≤ d1) (h12 : d1 < d2) (_h2 : d2 ≤ totalLength sqrt route) :
    (walk sqrt d1 route 0 0).1 ≤ (walk sqrt d2 route 0 0).1 :=
  walk_mono sqrt d1 d2 (le_of_lt h12) route 0 0

theorem walk_index_monotone_witness :
    ((0 : ℝ) ≤ 5 ∧ (5 : ℝ) < 15 ∧
      (15 : ℝ) ≤ totalLength Real.sqrt [((0 : ℝ), (0 : ℝ)), (10, 0), (10, 10)]) ∧
    (walk Real.sqrt (5 : ℝ) [(0, 0), (10, 0), (10, 10)] 0 0).1
      ≤ (walk Real.sqrt (15 : ℝ) [(0, 0), (10, 0), (10, 10)] 0 0).1 :=
  have h2 : (15 : ℝ) ≤ totalLength Real.sqrt [((0 : ℝ), (0 : ℝ)), (10, 0), (10, 10)] := by
    rw [totalLength_example]; norm_num
  ⟨⟨by norm_num, by norm_num, h2⟩,
    walk_index_monotone Real.sqrt [(0, 0), (10, 0), (10, 10)] 5 15 (by norm_num) (by norm_num) h2⟩

/-- The walk of the scenario route stops at segment `0` for `d = 5` and at
segment `1` for `d = 15`. -/
theorem walk_example_indices :
    walk Real.sqrt (5 : ℝ) [(0, 0), (10, 0), (10, 10)] 0 0 = (0, 0) ∧
    walk Real.sqrt (15 : ℝ) [(0, 0), (10, 0), (10, 10)] 0 0 = (1, 10) := by
  constructor
  · simp only [walk, segmentLength_east, segmentLength_north]; norm_num
  · simp only [walk, segmentLength_east, segmentLength_north]; norm_num

/-- C3: for every route and every travelled distance `0 ≤ d < totalLength`, the
active segment `i` is the first one whose cumulative end distance `D_(i+1)`
exceeds `d`, the tick moves the vessel to `P_i + (P_(i+1) - P_i) * (d - D_i) / L_i`
and publishes the slider value `100 * d / totalLength`. -/
theorem animate_interpolates (sqrt : K → K) (start timestamp d : K) (w : World K)
    (v : Coord K) (hv : w.vesselFeature = some v)
    (hd : d = speed *
      ((timestamp - (if start = 0 then timestamp else start) + w.elapsedTime) / 1000))
    (h0 : 0 ≤ d) (hlt : d < totalLength sqrt w.routeCoords) :
    ∃ (i : Nat) (a b : Coord K) (w1 : World K),
      w.routeCoords[i]? = some a ∧ w.routeCoords[i + 1]? = some b ∧
      (∀ m, m < i → distBefore sqrt w.routeCoords (m + 1) ≤ d) ∧
      d < distBefore sqrt w.routeCoords (i + 1) ∧
      (sample sqrt w.routeCoords d).map Sample.index = some i ∧
      animate sqrt start timestamp w = some w1 ∧
      w1.vesselFeature = some
        (a.1 + (b.1 - a.1) * (d - distBefore sqrt w.routeCoords i) / segmentLength sqrt a b,
         a.2 + (b.2 - a.2) * (d - distBefore sqrt w.routeCoords i) / segmentLength sqrt a b) ∧
      w1.sliderValue = 100 * d / totalLength sqrt w.routeCoords := by
  subst hd
  obtain ⟨i, a, b, ha, hb, hfirst, hbrk, -, hpos, hs⟩ := sample_of_lt sqrt w.routeCoords _ h0 hlt
  obtain ⟨w1, hw1, -, hves, hsl, -, -⟩ := animate_of_some sqrt start timestamp w _ v hv hs
  refine ⟨i, a, b, w1, ha, hb, hfirst, hbrk, by rw [hs]; rfl, hw1, ?_, ?_⟩
  · rw [hves]
    simp only [mul_div_assoc]
  · rw [hsl]
    simp only
    have hne : segmentLength sqrt a b ≠ 0 := ne_of_gt hpos
    rw [mul_div_cancel₀ _ hne]
    ring

theorem animate_interpolates_witness :
    ((0 : ℝ) ≤ 5 ∧ (5 : ℝ) < totalLength Real.sqrt (playing [(0, 0), (10, 0), (10, 10)]).routeCoords) ∧
    (∃ (i : Nat) (a b : Coord ℝ) (w1 : World ℝ),
      (playing [((0 : ℝ), (0 : ℝ)), (10, 0), (10, 10)]).routeCoords[i]? = some a ∧
      (playing [((0 : ℝ), (0 : ℝ)), (10, 0), (10, 10)]).routeCoords[i + 1]? = some b ∧
      (∀ m, m < i →
        distBefore Real.sqrt (playing [((0 : ℝ), (0 : ℝ)), (10, 0), (10, 10)]).routeCoords (m + 1)
          ≤ 5) ∧
      5 < distBefore Real.sqrt (playing [((0 : ℝ), (0 : ℝ)), (10, 0), (10, 10)]).routeCoords (i + 1) ∧
      (sample Real.sqrt (playing [((0 : ℝ), (0 : ℝ)), (10, 0), (10, 10)]).routeCoords 5).map
        Sample.index = some i ∧
      animate Real.sqrt 1 (53 / 50) (playing [((0 : ℝ), (0 : ℝ)), (10, 0), (10, 10)]) = some w1 ∧
      w1.vesselFeature = some
        (a.1 + (b.1 - a.1) *
            (5 - distBefore Real.sqrt (playing [((0 : ℝ), (0 : ℝ)), (10, 0), (10, 10)]).routeCoords i)
            / segmentLength Real.sqrt a b,
         a.2 + (b.2 - a.2) *
            (5 - distBefore Real.sqrt (playing [((0 : ℝ), (0 : ℝ)), (10, 0), (10, 10)]).routeCoords i)
            / segmentLength Real.sqrt a b) ∧
      w1.sliderValue
        = 100 * 5 / totalLength Real.sqrt (playing [((0 : ℝ), (0 : ℝ)), (10, 0), (10, 10)]).routeCoords) :=
  ⟨⟨by norm_num, by simp only [playing, totalLength_example]; norm_num⟩,
    animate_interpolates Real.sqrt 1 (53 / 50) 5 (playing [(0, 0), (10, 0), (10, 10)]) (0, 0) rfl
      (by norm_num [speed, playing]) (by norm_num)
      (by simp only [playing, totalLength_example]; norm_num)⟩

/-- The scenario of the specification, `d = 5`: the tick puts the vessel at
`(5, 0)` and the slider at `25`, a quarter of the route. -/
theorem animate_example_five :
    ∃ w1, animate Real.sqrt 1 (53 / 50) (playing [((0 : ℝ), (0 : ℝ)), (10, 0), (10, 10)]) = some w1 ∧
      w1.vesselFeature = some (5, 0) ∧ w1.sliderValue = 25 := by
  have hs : sample Real.sqrt [((0 : ℝ), (0 : ℝ)), (10, 0), (10, 10)] 5
      = some ⟨0, 0, 10, 1 / 2, (5, 0)⟩ := by
    simp only [sample, walk, segmentLength_east, segmentLength_north]
    norm_num [segmentLength_east, -Prod.mk_zero_zero]
  have hd : speed * ((53 / 50 - (if (1 : ℝ) = 0 then 53 / 50 else 1)
      + (playing [((0 : ℝ), (0 : ℝ)), (10, 0), (10, 10)]).elapsedTime) / 1000) = (5 : ℝ) := by
    norm_num [speed, playing]
  obtain ⟨w1, h1, -, hv, hsl, -, -⟩ :=
    animate_of_some Real.sqrt 1 (53 / 50) (playing [((0 : ℝ), (0 : ℝ)), (10, 0), (10, 10)])
      ⟨0, 0, 10, 1 / 2, (5, 0)⟩ (0, 0) rfl (by rw [hd]; exact hs)
  refine ⟨w1, h1, hv, ?_⟩
  rw [hsl]
  simp only [playing, totalLength_example]
  norm_num

/-- The scenario of the specification, `d = 15`: the tick puts the vessel at
`(10, 5)` and the slider at `75`, three quarters of the route. -/
theorem animate_example_fifteen :
    ∃ w1, animate Real.sqrt 1 (59 / 50) (playing [((0 : ℝ), (0 : ℝ)), (10, 0), (10, 10)]) = some w1 ∧
      w1.vesselFeature = some (10, 5) ∧ w1.sliderValue = 75 := by
  have hs : sample Real.sqrt [((0 : ℝ), (0 : ℝ)), (10, 0), (10, 10)] 15
      = some ⟨1, 10, 10, 1 / 2, (10, 5)⟩ := by
    simp only [sample, walk, segmentLength_east, segmentLength_north]
    norm_num [segmentLength_north, -Prod.mk_zero_zero]
  have hd : speed * ((59 / 50 - (if (1 : ℝ) = 0 then 59 / 50 else 1)
      + (playing [((0 : ℝ), (0 : ℝ)), (10, 0), (10, 10)]).elapsedTime) / 1000) = (15 : ℝ) := by
    norm_num [speed, playing]
  obtain ⟨w1, h1, -, hv, hsl, -, -⟩ :=
    animate_of_some Real.sqrt 1 (59 / 50) (playing [((0 : ℝ), (0 : ℝ)), (10, 0), (10, 10)])
      ⟨1, 10, 10, 1 / 2, (10, 5)⟩ (0, 0) rfl (by rw [hd]; exact hs)
  refine ⟨w1, h1, hv, ?_⟩
  rw [hsl]
  simp only [playing, totalLength_example]
  norm_num

theorem speed_pos : (0 : K) < speed := by
  unfold speed
  positivity

/-- C5: for a route of positive length and `0 ≤ d < totalLength`, the tick for
`d` puts the vessel at the sampled point and publishes `d / totalLength * 100`;
`handleSliderChange`, given that slider value in any state on the same route
(the vessel anywhere, also the state the tick produced), maps it back to `d`,
stores it and puts the vessel at the very point the tick computed. -/
theorem slider_round_trip (sqrt : K → K) (start timestamp d : K) (w : World K)
    (v : Coord K) (hv : w.vesselFeature = some v)
    (hd : d = speed *
      ((timestamp - (if start = 0 then timestamp else start) + w.elapsedTime) / 1000))
    (htot : 0 < totalLength sqrt w.routeCoords)
    (h0 : 0 ≤ d) (hlt : d < totalLength sqrt w.routeCoords) :
    ∃ (p : Sample K) (w1 : World K),
      sample sqrt w.routeCoords d = some p ∧
      animate sqrt start timestamp w = some w1 ∧
      w1.routeCoords = w.routeCoords ∧
      w1.vesselFeature = some p.intermediateCoord ∧
      w1.sliderValue = d / totalLength sqrt w.routeCoords * 100 ∧
      totalLength sqrt w1.routeCoords * (w1.sliderValue / 100) = d ∧
      (∀ (u : World K) (v1 : Coord K), u.routeCoords = w.routeCoords →
        u.vesselFeature = some v1 →
        handleSliderChange sqrt w1.sliderValue u
          = some { u with
                   sliderValue := w1.sliderValue
                   vesselFeature := some p.intermediateCoord }) ∧
      (∃ w2, handleSliderChange sqrt w1.sliderValue w1 = some w2 ∧
        w2.vesselFeature = w1.vesselFeature ∧ w2.sliderValue = w1.sliderValue) := by
  subst hd
  obtain ⟨p, hp⟩ : ∃ p, sample sqrt w.routeCoords (speed *
      ((timestamp - (if start = 0 then timestamp else start) + w.elapsedTime) / 1000)) = some p := by
    obtain ⟨i, a, b, -, -, -, -, -, -, hs⟩ := sample_of_lt sqrt w.routeCoords _ h0 hlt
    exact ⟨_, hs⟩
  have hmul := sample_mul_fraction sqrt w.routeCoords _ h0 p hp
  obtain ⟨w1, hw1, hroute, hves, hsl, -, -⟩ := animate_of_some sqrt start timestamp w p v hv hp
  have htne : totalLength sqrt w.routeCoords ≠ 0 := ne_of_gt htot
  have hsl2 : w1.sliderValue
      = speed * ((timestamp - (if start = 0 then timestamp else start) + w.elapsedTime) / 1000)
        / totalLength sqrt w.routeCoords * 100 := by
    rw [hsl, hmul]
    ring
  have hback : totalLength sqrt w1.routeCoords * (w1.sliderValue / 100)
      = speed * ((timestamp - (if start = 0 then timestamp else start) + w.elapsedTime) / 1000) := by
    rw [hroute, hsl2]
    field_simp
    ring
  have hall : ∀ (u : World K) (v1 : Coord K), u.routeCoords = w.routeCoords →
      u.vesselFeature = some v1 →
      handleSliderChange sqrt w1.sliderValue u
        = some { u with
                 sliderValue := w1.sliderValue
                 vesselFeature := some p.intermediateCoord } := by
    intro u v1 hur huv
    have hsu : sample sqrt u.routeCoords (totalLength sqrt u.routeCoords * (w1.sliderValue / 100))
        = some p := by
      rw [hur, ← hroute, hback, hroute]; exact hp
    exact handleSliderChange_of_some sqrt w1.sliderValue u p v1 huv hsu
  refine ⟨p, w1, hp, hw1, hroute, hves, hsl2, hback, hall, ?_⟩
  exact ⟨_, hall w1 _ hroute hves, by rw [hves], rfl⟩

theorem slider_round_trip_witness :
    ((0 : ℝ) < totalLength Real.sqrt (playing [((0 : ℝ), (0 : ℝ)), (10, 0), (10, 10)]).routeCoords ∧
      (0 : ℝ) ≤ 15 ∧
      (15 : ℝ) < totalLength Real.sqrt (playing [((0 : ℝ), (0 : ℝ)), (10, 0), (10, 10)]).routeCoords) ∧
    ∃ w1 : World ℝ,
      animate Real.sqrt 1 (59 / 50) (playing [((0 : ℝ), (0 : ℝ)), (10, 0), (10, 10)]) = some w1 ∧
      w1.vesselFeature = some (10, 5) ∧ w1.sliderValue = 75 ∧
      handleSliderChange Real.sqrt 75 midRun
        = some { midRun with sliderValue := 75, vesselFeature := some (10, 5) } := by
  have h1 : (0 : ℝ)
      < totalLength Real.sqrt (playing [((0 : ℝ), (0 : ℝ)), (10, 0), (10, 10)]).routeCoords := by
    simp only [playing, totalLength_example]; norm_num
  have h2 : (15 : ℝ)
      < totalLength Real.sqrt (playing [((0 : ℝ), (0 : ℝ)), (10, 0), (10, 10)]).routeCoords := by
    simp only [playing, totalLength_example]; norm_num
  have hs : sample Real.sqrt (playing [((0 : ℝ), (0 : ℝ)), (10, 0), (10, 10)]).routeCoords 15
      = some ⟨1, 10, 10, 1 / 2, (10, 5)⟩ := by
    simp only [playing, sample, walk, segmentLength_east, segmentLength_north]
    norm_num [segmentLength_north, -Prod.mk_zero_zero]
  obtain ⟨p, w1, hp, hw1, -, hves, hsl, -, hall, -⟩ :=
    slider_round_trip Real.sqrt 1 (59 / 50) 15 (playing [(0, 0), (10, 0), (10, 10)]) (0, 0) rfl
      (by norm_num [speed, playing]) h1 (by norm_num) h2
  have hp2 : p = ⟨1, 10, 10, 1 / 2, (10, 5)⟩ := by
    rw [hs] at hp
    exact (Option.some.inj hp).symm
  have hsl75 : w1.sliderValue = 75 := by
    rw [hsl]
    simp only [playing, totalLength_example]
    norm_num
  have hmid := hall midRun (5, 0) rfl rfl
  rw [hsl75, hp2] at hmid
  exact ⟨⟨h1, by norm_num, h2⟩, w1, hw1, by rw [hves, hp2], hsl75, hmid⟩

theorem sample_example_past_end :
    sample Real.sqrt (playing [((0 : ℝ), (0 : ℝ)), (10, 0), (10, 10)]).routeCoords
      (speed * ((13 / 10 - (if (1 : ℝ) = 0 then 13 / 10 else 1)
        + (playing [((0 : ℝ), (0 : ℝ)), (10, 0), (10, 10)]).elapsedTime) / 1000)) = none := by
  apply sample_none_of_ge Real.sqrt Real.sqrt_nonneg
  simp only [playing, totalLength_example]
  norm_num [speed]

/-- C1, as stated, fails: on the route `[(0,0),(10,0),(10,10)]` a tick with
travelled distance `25` does not put the vessel at `(10,10)` with slider `100`. -/
theorem sample_past_end_counterexample :
    sample Real.sqrt [((0 : ℝ), (0 : ℝ)), (10, 0), (10, 10)] 25 = none ∧
    ¬ ∃ w1 : World ℝ,
      animate Real.sqrt 1 (13 / 10) (playing [((0 : ℝ), (0 : ℝ)), (10, 0), (10, 10)]) = some w1 ∧
      w1.vesselFeature = some (10, 10) ∧ w1.sliderValue = 100 := by
  refine ⟨sample_none_of_ge Real.sqrt Real.sqrt_nonneg _ 25
    (by rw [totalLength_example]; norm_num), ?_⟩
  rintro ⟨w1, h1, -, hsl⟩
  rw [animate_of_none Real.sqrt 1 (13 / 10) _ sample_example_past_end] at h1
  have : w1 = playing [((0 : ℝ), (0 : ℝ)), (10, 0), (10, 10)] := (Option.some.inj h1).symm
  rw [this] at hsl
  norm_num [playing] at hsl

/-- C1 (amended): for every route and every travelled distance
`d ≥ totalLength` the walk runs past the last segment, there is no next point
and the sampler yields nothing: a tick leaves the vessel where it was, and the
slider handler stores the slider value and leaves the vessel where it was. -/
theorem sample_past_end (sqrt : K → K) (hs : ∀ x, 0 ≤ sqrt x) (w : World K) (d : K)
    (hd : totalLength sqrt w.routeCoords ≤ d) :
    sample sqrt w.routeCoords d = none ∧
    (∀ start timestamp : K,
      speed * ((timestamp - (if start = 0 then timestamp else start) + w.elapsedTime) / 1000) = d →
      (animate sqrt start timestamp w).map World.vesselFeature = some w.vesselFeature) ∧
    (∀ value : K, totalLength sqrt w.routeCoords * (value / 100) = d →
      handleSliderChange sqrt value w = some { w with sliderValue := value }) := by
  have hn := sample_none_of_ge sqrt hs w.routeCoords d hd
  refine ⟨hn, ?_, ?_⟩
  · intro start timestamp h
    rw [animate_of_none sqrt start timestamp w (by rw [h]; exact hn)]
    rfl
  · intro value h
    exact handleSliderChange_of_none sqrt value w (by rw [h]; exact hn)

theorem sample_past_end_witness :
    totalLength Real.sqrt (playing [((0 : ℝ), (0 : ℝ)), (10, 0), (10, 10)]).routeCoords ≤ 25 ∧
    sample Real.sqrt (playing [((0 : ℝ), (0 : ℝ)), (10, 0), (10, 10)]).routeCoords 25 = none ∧
    (animate Real.sqrt 1 (13 / 10) (playing [((0 : ℝ), (0 : ℝ)), (10, 0), (10, 10)])).map
      World.vesselFeature = some (some (0, 0)) :=
  have hd : totalLength Real.sqrt (playing [((0 : ℝ), (0 : ℝ)), (10, 0), (10, 10)]).routeCoords
      ≤ 25 := by
    simp only [playing, totalLength_example]; norm_num
  ⟨hd, (sample_past_end Real.sqrt Real.sqrt_nonneg _ 25 hd).1,
    (sample_past_end Real.sqrt Real.sqrt_nonneg _ 25 hd).2.1 1 (13 / 10)
      (by norm_num [speed, playing])⟩

theorem sample_example_route_end :
    sample Real.sqrt (playing [((0 : ℝ), (0 : ℝ)), (10, 0), (10, 10)]).routeCoords
      (speed * ((5 / 4 - (if (1 : ℝ) = 0 then 5 / 4 else 1)
        + (playing [((0 : ℝ), (0 : ℝ)), (10, 0), (10, 10)]).elapsedTime) / 1000)) = none := by
  apply sample_none_of_ge Real.sqrt Real.sqrt_nonneg
  simp only [playing, totalLength_example]
  norm_num [speed]

/-- C7, as stated, fails: on the route `[(0,0),(10,0),(10,10)]` a tick with
progress `1/4`, past `totalLength / speed` seconds (travelled distance `125/6`,
beyond the length `20`), neither sets the slider to `100` nor clears
`isAnimating`. -/
theorem tick_at_route_end_counterexample :
    ¬ ∃ w1 : World ℝ,
      animate Real.sqrt 1 (5 / 4) (playing [((0 : ℝ), (0 : ℝ)), (10, 0), (10, 10)]) = some w1 ∧
      w1.sliderValue = 100 ∧ w1.isAnimating = false := by
  rintro ⟨w1, h1, -, hplay⟩
  rw [animate_of_none Real.sqrt 1 (5 / 4) _ sample_example_route_end] at h1
  have : w1 = playing [((0 : ℝ), (0 : ℝ)), (10, 0), (10, 10)] := (Option.some.inj h1).symm
  rw [this] at hplay
  simp [playing] at hplay

/-- C7 (amended): for every route of positive length, a tick whose progress is
at least `totalLength / speed` seconds changes nothing: slider value,
`isAnimating`, elapsed time, vessel and frame queue stay as they were, so no
further tick is scheduled. -/
theorem tick_at_route_end (sqrt : K → K) (hs : ∀ x, 0 ≤ sqrt x) (start timestamp : K)
    (w : World K) (_htot : 0 < totalLength sqrt w.routeCoords)
    (hp : totalLength sqrt w.routeCoords / speed
      ≤ (timestamp - (if start = 0 then timestamp else start) + w.elapsedTime) / 1000) :
    animate sqrt start timestamp w = some w := by
  apply animate_of_none
  apply sample_none_of_ge sqrt hs
  rw [div_le_iff₀ speed_pos] at hp
  linarith

theorem tick_at_route_end_witness :
    ((0 : ℝ) < totalLength Real.sqrt (playing [((0 : ℝ), (0 : ℝ)), (10, 0), (10, 10)]).routeCoords ∧
      totalLength Real.sqrt (playing [((0 : ℝ), (0 : ℝ)), (10, 0), (10, 10)]).routeCoords / speed
        ≤ (31 / 25 - (if (1 : ℝ) = 0 then 31 / 25 else 1)
            + (playing [((0 : ℝ), (0 : ℝ)), (10, 0), (10, 10)]).elapsedTime) / 1000) ∧
    animate Real.sqrt 1 (31 / 25) (playing [((0 : ℝ), (0 : ℝ)), (10, 0), (10, 10)])
      = some (playing [((0 : ℝ), (0 : ℝ)), (10, 0), (10, 10)]) :=
  have h1 : (0 : ℝ)
      < totalLength Real.sqrt (playing [((0 : ℝ), (0 : ℝ)), (10, 0), (10, 10)]).routeCoords := by
    simp only [playing, totalLength_example]; norm_num
  have h2 : totalLength Real.sqrt (playing [((0 : ℝ), (0 : ℝ)), (10, 0), (10, 10)]).routeCoords
      / speed ≤ (31 / 25 - (if (1 : ℝ) = 0 then 31 / 25 else 1)
            + (playing [((0 : ℝ), (0 : ℝ)), (10, 0), (10, 10)]).elapsedTime) / 1000 := by
    simp only [playing, totalLength_example]; norm_num [speed]
  ⟨⟨h1, h2⟩, tick_at_route_end Real.sqrt Real.sqrt_nonneg 1 (31 / 25) _ h1 h2⟩

theorem totalLength_coincident :
    totalLength Real.sqrt [((1 : ℝ), (1 : ℝ)), (1, 1)] = 0 := by
  simp only [totalLength_eq_pathLength, pathLength, segmentLength_still_one]
  norm_num

theorem totalLength_leading_coincident :
    totalLength Real.sqrt [((0 : ℝ), (0 : ℝ)), (0, 0), (10, 0)] = 10 := by
  simp only [totalLength_eq_pathLength, pathLength, segmentLength_still, segmentLength_east]
  norm_num

/-- C2, as stated, fails when all points coincide: on the route `[(1,1),(1,1)]`
with the slider at `50`, the tick with progress `0` does not yield slider value `0`. -/
theorem sample_at_start_counterexample :
    sample Real.sqrt [((1 : ℝ), (1 : ℝ)), (1, 1)] 0 = none ∧
    ¬ ∃ w1 : World ℝ,
      animate Real.sqrt 1 1 { playing [((1 : ℝ), (1 : ℝ)), (1, 1)] with sliderValue := 50 }
        = some w1 ∧
      w1.vesselFeature = some (1, 1) ∧ w1.sliderValue = 0 := by
  refine ⟨sample_none_of_ge Real.sqrt Real.sqrt_nonneg _ 0
    (by rw [totalLength_coincident]), ?_⟩
  rintro ⟨w1, h1, -, hsl⟩
  have hn : sample Real.sqrt
      ({ playing [((1 : ℝ), (1 : ℝ)), (1, 1)] with sliderValue := 50 } : World ℝ).routeCoords
      (speed * ((1 - (if (1 : ℝ) = 0 then 1 else 1)
        + ({ playing [((1 : ℝ), (1 : ℝ)), (1, 1)] with sliderValue := 50 } : World ℝ).elapsedTime)
          / 1000)) = none := by
    apply sample_none_of_ge Real.sqrt Real.sqrt_nonneg
    simp only [playing, totalLength_coincident]
    norm_num [speed]
  rw [animate_of_none Real.sqrt 1 1 _ hn] at h1
  have : w1 = { playing [((1 : ℝ), (1 : ℝ)), (1, 1)] with sliderValue := 50 } :=
    (Option.some.inj h1).symm
  rw [this] at hsl
  norm_num at hsl

/-- C2 (amended): for every route of positive total length (not all points
coincide), sampling at travelled distance `0` (a tick with progress `0`, or
slider value `0`) places the vessel at the first route point and yields slider
value `0`, also when leading points of the route coincide. -/
theorem sample_at_start (sqrt : K → K) (hs : ∀ x, 0 ≤ sqrt x)
    (hs0 : ∀ x, 0 ≤ x → sqrt x = 0 → x = 0) (w : World K) (v first : Coord K)
    (hv : w.vesselFeature = some v) (hfirst : w.routeCoords[0]? = some first)
    (htot : 0 < totalLength sqrt w.routeCoords) :
    (∀ start timestamp : K,
      timestamp - (if start = 0 then timestamp else start) + w.elapsedTime = 0 →
      ∃ w1, animate sqrt start timestamp w = some w1 ∧
        w1.vesselFeature = some first ∧ w1.sliderValue = 0) ∧
    (∃ w2, handleSliderChange sqrt 0 w = some w2 ∧
      w2.vesselFeature = some first ∧ w2.sliderValue = 0) := by
  obtain ⟨p, hp, hdist, hfrac, hpt⟩ := sample_zero sqrt hs hs0 w.routeCoords first hfirst htot
  constructor
  · intro start timestamp hprog
    have hp1 : sample sqrt w.routeCoords (speed *
        ((timestamp - (if start = 0 then timestamp else start) + w.elapsedTime) / 1000))
        = some p := by
      rw [hprog]; simpa using hp
    obtain ⟨w1, hw1, -, hves, hsl, -, -⟩ := animate_of_some sqrt start timestamp w p v hv hp1
    refine ⟨w1, hw1, by rw [hves, hpt], ?_⟩
    rw [hsl, hdist, hfrac]
    simp
  · have hp2 : sample sqrt w.routeCoords (totalLength sqrt w.routeCoords * (0 / 100))
        = some p := by
      simpa using hp
    rw [handleSliderChange_of_some sqrt 0 w p v hv hp2]
    exact ⟨_, rfl, by simp [hpt], rfl⟩

theorem sample_at_start_witness :
    (0 : ℝ) < totalLength Real.sqrt (playing [((0 : ℝ), (0 : ℝ)), (0, 0), (10, 0)]).routeCoords ∧
    (∃ w1, animate Real.sqrt 1 1 (playing [((0 : ℝ), (0 : ℝ)), (0, 0), (10, 0)]) = some w1 ∧
      w1.vesselFeature = some (0, 0) ∧ w1.sliderValue = 0) ∧
    (∃ w2, handleSliderChange Real.sqrt 0 (playing [((0 : ℝ), (0 : ℝ)), (0, 0), (10, 0)])
        = some w2 ∧
      w2.vesselFeature = some (0, 0) ∧ w2.sliderValue = 0) :=
  have htot : (0 : ℝ)
      < totalLength Real.sqrt (playing [((0 : ℝ), (0 : ℝ)), (0, 0), (10, 0)]).routeCoords := by
    simp only [playing, totalLength_leading_coincident]; norm_num
  ⟨htot,
    (sample_at_start Real.sqrt Real.sqrt_nonneg (fun x hx h => (Real.sqrt_eq_zero hx).mp h)
      (playing [((0 : ℝ), (0 : ℝ)), (0, 0), (10, 0)]) (0, 0) (0, 0) rfl rfl htot).1 1 1
      (by norm_num [playing]),
    (sample_at_start Real.sqrt Real.sqrt_nonneg (fun x hx h => (Real.sqrt_eq_zero hx).mp h)
      (playing [((0 : ℝ), (0 : ℝ)), (0, 0), (10, 0)]) (0, 0) (0, 0) rfl rfl htot).2⟩

/-! ## Reset, guards and pause -/

theorem cancelIfSet_fields {F : Type} (h : Option Nat) (w : World F) :
    (cancelIfSet h w).routeCoords = w.routeCoords ∧
    (cancelIfSet h w).vesselFeature = w.vesselFeature ∧
    (cancelIfSet h w).isAnimating = w.isAnimating ∧
    (cancelIfSet h w).sliderValue = w.sliderValue ∧
    (cancelIfSet h w).animationFrame = w.animationFrame ∧
    (cancelIfSet h w).elapsedTime = w.elapsedTime ∧
    (cancelIfSet h w).nextFrame = w.nextFrame := by
  cases h with
  | none => simp [cancelIfSet]
  | some n =>
    by_cases hn : n = 0
    · simp [cancelIfSet, hn]
    · simp [cancelIfSet, hn, cancelAnimationFrame]

theorem cancelIfSet_pending_idem {F : Type} (h : Option Nat) (w : World F) :
    (cancelIfSet h (cancelIfSet h w)).pending = (cancelIfSet h w).pending := by
  cases h with
  | none => simp [cancelIfSet]
  | some n =>
    by_cases hn : n = 0
    · simp [cancelIfSet, hn]
    · simp [cancelIfSet, hn, cancelAnimationFrame, List.filter_filter]

theorem cancelIfSet_pending_congr {F : Type} (h : Option Nat) (w w1 : World F)
    (hp : w1.pending = w.pending) :
    (cancelIfSet h w1).pending = (cancelIfSet h w).pending := by
  cases h with
  | none => simpa [cancelIfSet] using hp
  | some n =>
    by_cases hn : n = 0
    · simpa [cancelIfSet, hn] using hp
    · simp [cancelIfSet, hn, cancelAnimationFrame, hp]

theorem World.ext_fields {F : Type} (a b : World F) (h1 : a.routeCoords = b.routeCoords)
    (h2 : a.vesselFeature = b.vesselFeature) (h3 : a.isAnimating = b.isAnimating)
    (h4 : a.sliderValue = b.sliderValue) (h5 : a.animationFrame = b.animationFrame)
    (h6 : a.elapsedTime = b.elapsedTime) (h7 : a.nextFrame = b.nextFrame)
    (h8 : a.pending = b.pending) : a = b := by
  cases a; cases b
  simp only [World.mk.injEq]
  exact ⟨h1, h2, h3, h4, h5, h6, h7, h8⟩

/-- What `handleReset` leaves behind on a non-empty route with a vessel. -/
theorem handleReset_fields (w : World K) (v first : Coord K) (rest : List (Coord K))
    (hv : w.vesselFeature = some v) (hr : w.routeCoords = first :: rest) :
    (handleReset w).routeCoords = w.routeCoords ∧
    (handleReset w).vesselFeature = some first ∧
    (handleReset w).isAnimating = false ∧
    (handleReset w).sliderValue = 0 ∧
    (handleReset w).animationFrame = w.animationFrame ∧
    (handleReset w).elapsedTime = 0 ∧
    (handleReset w).nextFrame = w.nextFrame ∧
    (handleReset w).pending = (cancelIfSet w.animationFrame w).pending := by
  obtain ⟨c1, c2, -, -, c5, -, c7⟩ := cancelIfSet_fields w.animationFrame w
  unfold handleReset
  simp [c1, c2, c5, c7, hv, hr]

/-- C8: for every state with a non-empty route and an existing vessel, applying
`handleReset` twice gives the state obtained by applying it once, and that state
has `elapsedTime = 0`, `sliderValue = 0`, `isAnimating = false` and the vessel at
`routeCoords[0]`. -/
theorem handleReset_idempotent (w : World K) (v first : Coord K) (rest : List (Coord K))
    (hv : w.vesselFeature = some v) (hr : w.routeCoords = first :: rest) :
    handleReset (handleReset w) = handleReset w ∧
    (handleReset w).elapsedTime = 0 ∧ (handleReset w).sliderValue = 0 ∧
    (handleReset w).isAnimating = false ∧ (handleReset w).vesselFeature = some first := by
  obtain ⟨r1, r2, r3, r4, r5, r6, r7, r8⟩ := handleReset_fields w v first rest hv hr
  obtain ⟨t1, t2, t3, t4, t5, t6, t7, t8⟩ :=
    handleReset_fields (handleReset w) first first rest r2 (by rw [r1, hr])
  refine ⟨?_, r6, r4, r3, r2⟩
  apply World.ext_fields
  · exact t1
  · rw [t2, r2]
  · rw [t3, r3]
  · rw [t4, r4]
  · exact t5
  · rw [t6, r6]
  · exact t7
  · rw [t8, r5, r8]
    rw [cancelIfSet_pending_congr w.animationFrame (cancelIfSet w.animationFrame w)
      (handleReset w) r8]
    exact cancelIfSet_pending_idem w.animationFrame w

theorem handleReset_idempotent_witness :
    handleReset (handleReset midRun) = handleReset midRun ∧
    (handleReset midRun).elapsedTime = 0 ∧ (handleReset midRun).sliderValue = 0 ∧
    (handleReset midRun).isAnimating = false ∧
    (handleReset midRun).vesselFeature = some (0, 0) :=
  handleReset_idempotent midRun (5, 0) (0, 0) [(10, 0), (10, 10)] rfl rfl

/-- The guard of `animateVessel`: without a vessel or without a route it returns
at once and changes nothing. -/
theorem animateVessel_guard {F : Type} (timestamp : F) (w : World F)
    (h : w.vesselFeature = none ∨ w.routeCoords = []) : animateVessel timestamp w = w := by
  unfold animateVessel
  rcases h with h | h
  · simp [h]
  · simp [h]

/-- C9 (the code at the failing inputs): on the freshly mounted component (no
route, no vessel) `animateVessel` changes nothing, but `handleSliderChange` with
value `50` stores `50` as slider value; with a route and a `null` vessel it
fails on the `null` vessel. -/
theorem handleSliderChange_unguarded :
    animateVessel 1 (initial : World ℝ) = initial ∧
    handleSliderChange Real.sqrt 50 (initial : World ℝ)
      = some { (initial : World ℝ) with sliderValue := 50 } ∧
    ({ (initial : World ℝ) with sliderValue := 50 } : World ℝ).sliderValue
      ≠ (initial : World ℝ).sliderValue ∧
    handleSliderChange Real.sqrt 50
      ({ (initial : World ℝ) with routeCoords := [(0, 0), (10, 0)] } : World ℝ) = none := by
  refine ⟨animateVessel_guard 1 initial (Or.inl rfl), ?_, ?_, ?_⟩
  · simp [handleSliderChange, sample, walk, initial]
  · norm_num [initial]
  · have ht : totalLength Real.sqrt [((0 : ℝ), (0 : ℝ)), (10, 0)] = 10 := by
      simp only [totalLength_eq_pathLength, pathLength, segmentLength_east]
      norm_num
    have hs : sample Real.sqrt [((0 : ℝ), (0 : ℝ)), (10, 0)] (10 * (50 / 100))
        = some ⟨0, 0, 10, 1 / 2, (5, 0)⟩ := by
      simp only [sample, walk, segmentLength_east]
      norm_num [segmentLength_east, -Prod.mk_zero_zero]
    unfold handleSliderChange
    simp only [initial, ht, hs]

/-- The tick of a playing animation, when a next point exists. -/
theorem animate_playing (sqrt : K → K) (start timestamp : K) (w : World K) (p : Sample K)
    (v : Coord K) (hv : w.vesselFeature = some v) (hplay : w.isAnimating = true)
    (hstart : start ≠ 0)
    (h : sample sqrt w.routeCoords (speed * ((timestamp - start + w.elapsedTime) / 1000))
      = some p) :
    animate sqrt start timestamp w = some
      { w with
        vesselFeature := some p.intermediateCoord
        sliderValue :=
          (p.distance + p.segmentLength * p.fraction) / totalLength sqrt w.routeCoords * 100
        animationFrame := some w.nextFrame
        nextFrame := w.nextFrame + 1
        pending := w.pending ++ [(w.nextFrame, Callback.animate start)] } := by
  unfold animate
  simp only [if_neg hstart, h, hv, hplay, requestAnimationFrame]
  rfl

/-- Neither Play nor Pause touches `elapsedTime`. -/
theorem handlePlayPause_elapsedTime {F : Type} (w : World F) :
    (handlePlayPause w).elapsedTime = w.elapsedTime := by
  unfold handlePlayPause
  split
  · exact (cancelIfSet_fields w.animationFrame _).2.2.2.2.2.1
  · rfl

/-- A tick of a playing animation does not touch `elapsedTime`. -/
theorem animate_elapsedTime (sqrt : K → K) (start timestamp : K) (w w1 : World K)
    (hplay : w.isAnimating = true) (h : animate sqrt start timestamp w = some w1) :
    w1.elapsedTime = w.elapsedTime := by
  unfold animate at h
  simp only at h
  split at h
  · rw [← Option.some.inj h]
  · split at h
    · cases h
    · simp only [hplay, if_true, requestAnimationFrame] at h
      rw [← Option.some.inj h]

/-- Pressing Play on a drawn route and running the first frame leads to the
state `playing`, with the first tick queued as frame `2`. -/
theorem frame_after_play (sqrt : K → K) (timestamp : K) (first : Coord K)
    (rest : List (Coord K)) :
    frame sqrt timestamp (handlePlayPause (drawend (first :: rest) initial))
      = some { playing (first :: rest) with pending := [(2, Callback.animate timestamp)] } := by
  simp [frame, runCallbacks, animateVessel, cancelAnimationFrame, handlePlayPause, drawend,
    initial, requestAnimationFrame, playing]

/-- C6 (the code at the failing input): Play on the route `[(0,0),(10,0),(10,10)]`,
a tick with progress `3/50 > 0` that moves the vessel to `(5,0)`, then Pause:
the stored `elapsedTime` is `0`, not `3/50`; after Resume the first tick with
progress `1/50` puts the vessel back at `(5/3, 0)`. -/
theorem pause_resume_run :
    (frame Real.sqrt 1 (handlePlayPause (drawend [((0 : ℝ), (0 : ℝ)), (10, 0), (10, 10)] initial))).bind
      (frame Real.sqrt (53 / 50)) = some midRun ∧
    (handlePlayPause midRun).isAnimating = false ∧
    (handlePlayPause midRun).pending = [] ∧
    (handlePlayPause midRun).elapsedTime = 0 ∧
    (frame Real.sqrt 2 (handlePlayPause (handlePlayPause midRun))).bind
      (frame Real.sqrt (101 / 50))
      = some ⟨[(0, 0), (10, 0), (10, 10)], some (5 / 3, 0), true, 25 / 3, some 6, 0, 7,
          [(6, Callback.animate 2)]⟩ := by
  have hs1 : sample Real.sqrt [((0 : ℝ), (0 : ℝ)), (10, 0), (10, 10)]
      (speed * ((53 / 50 - 1 + 0) / 1000)) = some ⟨0, 0, 10, 1 / 2, (5, 0)⟩ := by
    rw [show (speed * ((53 / 50 - 1 + 0) / 1000) : ℝ) = 5 by norm_num [speed]]
    simp only [sample, walk, segmentLength_east, segmentLength_north]
    norm_num [segmentLength_east, -Prod.mk_zero_zero]
  have hs2 : sample Real.sqrt [((0 : ℝ), (0 : ℝ)), (10, 0), (10, 10)]
      (speed * ((101 / 50 - 2 + 0) / 1000)) = some ⟨0, 0, 10, 1 / 6, (5 / 3, 0)⟩ := by
    rw [show (speed * ((101 / 50 - 2 + 0) / 1000) : ℝ) = 5 / 3 by norm_num [speed]]
    simp only [sample, walk, segmentLength_east, segmentLength_north]
    norm_num [segmentLength_east, -Prod.mk_zero_zero]
  have hpp : handlePlayPause (handlePlayPause midRun)
      = ⟨[(0, 0), (10, 0), (10, 10)], some (5, 0), true, 25, some 3, 0, 5,
          [(4, Callback.animateVessel)]⟩ := by
    simp [handlePlayPause, midRun, cancelIfSet, cancelAnimationFrame, requestAnimationFrame]
  have hf1 : frame Real.sqrt 2
      (⟨[(0, 0), (10, 0), (10, 10)], some (5, 0), true, 25, some 3, 0, 5,
          [(4, Callback.animateVessel)]⟩ : World ℝ)
      = some ⟨[(0, 0), (10, 0), (10, 10)], some (5, 0), true, 25, some 5, 0, 6,
          [(5, Callback.animate 2)]⟩ := by
    simp [frame, runCallbacks, animateVessel, cancelAnimationFrame, requestAnimationFrame]
  have ha2 := animate_playing Real.sqrt 2 (101 / 50)
    (⟨[(0, 0), (10, 0), (10, 10)], some (5, 0), true, 25, some 5, 0, 6, []⟩ : World ℝ)
    ⟨0, 0, 10, 1 / 6, (5 / 3, 0)⟩ (5, 0) rfl rfl two_ne_zero hs2
  have ha1 := animate_playing Real.sqrt 1 (53 / 50)
    (⟨[(0, 0), (10, 0), (10, 10)], some (0, 0), true, 0, some 2, 0, 3, []⟩ : World ℝ)
    ⟨0, 0, 10, 1 / 2, (5, 0)⟩ (0, 0) rfl rfl one_ne_zero hs1
  simp only [totalLength_example] at ha1 ha2
  refine ⟨?_, ?_, ?_, ?_, ?_⟩
  · rw [frame_after_play]
    simp only [Option.bind, frame, runCallbacks, cancelAnimationFrame, playing, List.any_cons,
      List.any_nil, beq_self_eq_true, Bool.or_false, if_true, List.filter_cons, List.filter_nil,
      bne_self_eq_false, Bool.false_eq_true, if_false, List.head?_cons, ha1, midRun]
    norm_num
  · simp [handlePlayPause, midRun, cancelIfSet, cancelAnimationFrame]
  · simp [handlePlayPause, midRun, cancelIfSet, cancelAnimationFrame]
  · simp [handlePlayPause, midRun, cancelIfSet, cancelAnimationFrame]
  · rw [hpp, hf1]
    simp only [Option.bind, frame, runCallbacks, cancelAnimationFrame, List.any_cons,
      List.any_nil, beq_self_eq_true, Bool.or_false, if_true, List.filter_cons, List.filter_nil,
      bne_self_eq_false, Bool.false_eq_true, if_false, ha2]
    norm_num

end RouteAnimation
